import Mathlib

/-!
Shallow embedding of `src/lab01/lab1_simulation.py` (a tkinter ballistic
simulator).  The numerical core is the Euler loop of `run_simulation`
(lines 156-226), parameter acquisition is `get_parameters` (lines 127-150)
and the table rendering of flight time is `update_table` (lines 256-272).

Modelling conventions:
* Python floats are idealised as real numbers `ℝ`.
* Lean's total division returns 0 on a zero divisor, while Python raises
  `ZeroDivisionError`; the predicate `raisesDivZero` records exactly the
  situations in which the Python code would raise (the guarded divisions on
  lines 189-190 divide by `m * v` and are only evaluated when `v > 0`).
* The `while y >= 0` loop is modelled by the iterated step function
  `states`; `landingIndex p n` says the loop exits after exactly `n`
  iterations (first sample with negative height), and `Terminates p` says
  it exits at all.
* `float(entry.get())` parsing is modelled by `Option ℝ` fields: `none`
  is a failed parse (`ValueError` in Python).
-/

noncomputable section

namespace Lab1

open Real

/-- Gravitational constant, `self.g = 9.81` (line 31). -/
def g : ℝ := 9.81

/-- The seven numeric parameters collected by `get_parameters`
(lines 130-138). -/
structure Params where
  v0 : ℝ
  angle : ℝ
  m : ℝ
  rho : ℝ
  C : ℝ
  S : ℝ
  dt : ℝ

/-- The validation predicate enforced by `get_parameters` (lines 140-145):
step positive, initial speed positive, angle strictly between 0 and 90. -/
def valid (p : Params) : Prop :=
  0 < p.dt ∧ 0 < p.v0 ∧ 0 < p.angle ∧ p.angle < 90

/-- `math.radians` (line 172). -/
def radians (d : ℝ) : ℝ := d * Real.pi / 180

/-- The mutable state of the Euler loop of `run_simulation`: position,
velocity, elapsed time, the trajectory list and the running maximum
height (lines 173-179). -/
structure Config where
  x : ℝ
  y : ℝ
  vx : ℝ
  vy : ℝ
  t : ℝ
  traj : List (ℝ × ℝ)
  maxH : ℝ

/-- Initial state (lines 172-179): position at the origin, velocity from
the cosine/sine decomposition of the initial speed, trajectory seeded with
the origin sample, max height 0. -/
def init (p : Params) : Config :=
  ⟨0, 0, p.v0 * Real.cos (radians p.angle), p.v0 * Real.sin (radians p.angle),
    0, [(0, 0)], 0⟩

/-- Current speed magnitude `v = math.sqrt(vx ** 2 + vy ** 2)` (line 183). -/
def speed (c : Config) : ℝ := Real.sqrt (c.vx ^ 2 + c.vy ^ 2)

/-- `calculate_drag_force` (lines 152-154). -/
def calculate_drag_force (p : Params) (v : ℝ) : ℝ :=
  0.5 * p.rho * p.C * p.S * v ^ 2

/-- The situation in which the Python acceleration computation
(lines 189-190) raises `ZeroDivisionError`: the `v > 0` branch is taken
and the divisor `m * v` is zero (i.e. the mass is zero). -/
def raisesDivZero (p : Params) (c : Config) : Prop :=
  0 < speed c ∧ p.m * speed c = 0

/-- Acceleration components (lines 189-190):
`ax = -drag_force * vx / (m * v) if v > 0 else 0` and
`ay = -g - drag_force * vy / (m * v) if v > 0 else -g`. -/
def accel (p : Params) (c : Config) : ℝ × ℝ :=
  (if 0 < speed c then
      -calculate_drag_force p (speed c) * c.vx / (p.m * speed c)
    else 0,
   if 0 < speed c then
      -g - calculate_drag_force p (speed c) * c.vy / (p.m * speed c)
    else -g)

/-- Velocity after the forward-Euler update `vx += ax * dt; vy += ay * dt`
(lines 193-194). -/
def newVel (p : Params) (c : Config) : ℝ × ℝ :=
  (c.vx + (accel p c).1 * p.dt, c.vy + (accel p c).2 * p.dt)

/-- One iteration of the loop body (lines 182-205): velocity is advanced
first, position is then advanced with the updated velocity, time advances
by `dt`, the new position is appended to the trajectory and the running
maximum height is updated (`if y > max_height`). -/
def stepC (p : Params) (c : Config) : Config :=
  ⟨c.x + (newVel p c).1 * p.dt,
   c.y + (newVel p c).2 * p.dt,
   (newVel p c).1,
   (newVel p c).2,
   c.t + p.dt,
   c.traj ++ [(c.x + (newVel p c).1 * p.dt, c.y + (newVel p c).2 * p.dt)],
   if c.y + (newVel p c).2 * p.dt > c.maxH then c.y + (newVel p c).2 * p.dt
   else c.maxH⟩

/-- State after `n` completed iterations of the loop body. -/
def states (p : Params) : ℕ → Config
  | 0 => init p
  | n + 1 => stepC p (states p n)

/-- The loop `while y >= 0` exits after exactly `n` iterations: the first
`n` top-of-loop checks see a nonnegative height and the `n`-th state is the
first with negative height. -/
def landingIndex (p : Params) (n : ℕ) : Prop :=
  (states p n).y < 0 ∧ ∀ i, i < n → 0 ≤ (states p i).y

/-- The Euler loop terminates. -/
def Terminates (p : Params) : Prop := ∃ n, landingIndex p n

/-- The Python loop reaches iteration `n` (every earlier top-of-loop check
passed and no earlier iteration raised) and raises `ZeroDivisionError`
there. -/
def RaisesAt (p : Params) (n : ℕ) : Prop :=
  (∀ i, i ≤ n → 0 ≤ (states p i).y) ∧
  (∀ i, i < n → ¬ raisesDivZero p (states p i)) ∧
  raisesDivZero p (states p n)

/-- The result record (lines 15-22, filled in on lines 207-219). -/
structure SimulationResult where
  dt : ℝ
  trajectory : List (ℝ × ℝ)
  f_range : ℝ
  max_height : ℝ
  final_speed : ℝ

/-- The `SimulationResult` built at loop exit (lines 207-219); the final
speed is `math.sqrt(vx ** 2 + vy ** 2) if y <= 0 else 0` (line 209). -/
def mkResult (p : Params) (n : ℕ) : SimulationResult :=
  ⟨p.dt,
   (states p n).traj,
   (states p n).x,
   (states p n).maxH,
   if (states p n).y ≤ 0 then
     Real.sqrt ((states p n).vx ^ 2 + (states p n).vy ^ 2)
   else 0⟩

/-- The flight time rendered by `update_table` (line 264):
`len(result.trajectory) * result.dt`. -/
def displayedFlightTime (r : SimulationResult) : ℝ :=
  (r.trajectory.length : ℝ) * r.dt

/-- The textual sources of the seven parameters, after `float(...)`
parsing: `none` models a parse failure (`ValueError`). -/
structure RawInputs where
  v0 : Option ℝ
  angle : Option ℝ
  m : Option ℝ
  rho : Option ℝ
  C : Option ℝ
  S : Option ℝ
  dt : Option ℝ

/-- `get_parameters` (lines 127-150): parse all seven fields (any parse
failure raises, caught as `None`), then validate step, initial speed and
angle in that order; on success return the parameter record. -/
def get_parameters (r : RawInputs) : Option Params :=
  match r.v0, r.angle, r.m, r.rho, r.C, r.S, r.dt with
  | some v0, some angle, some m, some rho, some C, some S, some dt =>
      if dt ≤ 0 then none
      else if v0 ≤ 0 then none
      else if angle ≤ 0 ∨ 90 ≤ angle then none
      else some ⟨v0, angle, m, rho, C, S, dt⟩
  | _, _, _, _, _, _, _ => none

/-- The failure condition stated by the error-handling design: a parse
failure on one of the seven fields, or step ≤ 0, or initial speed ≤ 0, or
angle outside the open interval (0, 90). -/
def paramFailure (r : RawInputs) : Prop :=
  r.v0 = none ∨ r.angle = none ∨ r.m = none ∨ r.rho = none ∨
  r.C = none ∨ r.S = none ∨ r.dt = none ∨
  (∃ dt, r.dt = some dt ∧ dt ≤ 0) ∨
  (∃ v0, r.v0 = some v0 ∧ v0 ≤ 0) ∨
  (∃ a, r.angle = some a ∧ (a ≤ 0 ∨ 90 ≤ a))

/-- One button press of `run_simulation` as seen by the stored results list
(lines 156-222): failed acquisition leaves the list unchanged; on success
the duplicate-step confirmation dialog (lines 164-169, answer modelled by
`confirm`) may abort, otherwise the new result is appended.  The simulation
itself is abstracted by `sim`. -/
def sessionStep (sim : Params → SimulationResult) (confirm : Bool)
    (r : RawInputs) (results : List SimulationResult) :
    List SimulationResult :=
  match get_parameters r with
  | none => results
  | some p =>
      if (∃ q ∈ results, |q.dt - p.dt| < 1 / 10 ^ 10) ∧ confirm = false then
        results
      else results ++ [sim p]

/-! Basic facts about one loop iteration. -/

lemma stepC_x (p : Params) (c : Config) :
    (stepC p c).x = c.x + (stepC p c).vx * p.dt := rfl

lemma stepC_y (p : Params) (c : Config) :
    (stepC p c).y = c.y + (stepC p c).vy * p.dt := rfl

lemma stepC_vx (p : Params) (c : Config) :
    (stepC p c).vx = c.vx + (accel p c).1 * p.dt := rfl

lemma stepC_vy (p : Params) (c : Config) :
    (stepC p c).vy = c.vy + (accel p c).2 * p.dt := rfl

lemma stepC_t (p : Params) (c : Config) : (stepC p c).t = c.t + p.dt := rfl

lemma stepC_traj (p : Params) (c : Config) :
    (stepC p c).traj = c.traj ++ [((stepC p c).x, (stepC p c).y)] := rfl

lemma stepC_maxH (p : Params) (c : Config) :
    (stepC p c).maxH =
      if (stepC p c).y > c.maxH then (stepC p c).y else c.maxH := rfl

lemma states_t (p : Params) (n : ℕ) : (states p n).t = n * p.dt := by
  induction n with
  | zero => simp [states, init]
  | succ n ih =>
      rw [states, stepC_t, ih]
      push_cast
      ring

lemma states_traj (p : Params) (n : ℕ) :
    (states p n).traj =
      (List.range (n + 1)).map (fun i => ((states p i).x, (states p i).y)) := by
  induction n with
  | zero => rfl
  | succ n ih =>
      rw [states, stepC_traj, ih, ← states]
      conv_rhs => rw [List.range_succ]
      rw [List.map_append]
      simp

lemma states_traj_length (p : Params) (n : ℕ) :
    (states p n).traj.length = n + 1 := by
  rw [states_traj]
  simp

/-! The running maximum of height is the true maximum over the samples. -/

lemma maxH_ub (p : Params) (n : ℕ) :
    (∀ q ∈ (states p n).traj, q.2 ≤ (states p n).maxH) ∧
      (states p n).maxH ∈ ((states p n).traj).map Prod.snd := by
  induction n with
  | zero =>
      constructor
      · intro q hq
        simp only [states, init, List.mem_singleton] at hq
        subst hq
        simp [states, init]
      · simp [states, init]
  | succ n ih =>
      obtain ⟨hub, hmem⟩ := ih
      rw [states, stepC_traj, stepC_maxH]
      by_cases hy : (stepC p (states p n)).y > (states p n).maxH
      · rw [if_pos hy]
        constructor
        · intro q hq
          rcases List.mem_append.mp hq with h | h
          · exact le_of_lt (lt_of_le_of_lt (hub q h) hy)
          · simp only [List.mem_singleton] at h
            subst h
            exact le_rfl
        · simp
      · rw [if_neg hy]
        constructor
        · intro q hq
          rcases List.mem_append.mp hq with h | h
          · exact hub q h
          · simp only [List.mem_singleton] at h
            subst h
            exact not_lt.mp hy
        · rw [List.map_append]
          exact List.mem_append_left _ hmem

/-! Zero-drag specialisation: when the product rho * C * S is zero the
drag force vanishes and both branches of the acceleration reduce to
free-fall. -/

lemma calculate_drag_force_eq_zero (p : Params) (hd : p.rho * p.C * p.S = 0)
    (v : ℝ) : calculate_drag_force p v = 0 := by
  unfold calculate_drag_force
  linear_combination (0.5 * v ^ 2) * hd

lemma accel_zeroDrag (p : Params) (c : Config)
    (hd : p.rho * p.C * p.S = 0) : accel p c = (0, -g) := by
  unfold accel
  rw [calculate_drag_force_eq_zero p hd]
  by_cases h : 0 < speed c
  · simp [h]
  · simp [h]

lemma states_vy_zeroDrag (p : Params) (hd : p.rho * p.C * p.S = 0) (n : ℕ) :
    (states p n).vy = (init p).vy - n * (g * p.dt) := by
  induction n with
  | zero => simp [states]
  | succ n ih =>
      rw [states, stepC_vy, accel_zeroDrag p (states p n) hd, ih]
      push_cast
      ring

/-! Termination machinery. -/

lemma terminates_of_neg (p : Params) (h : ∃ n, (states p n).y < 0) :
    Terminates p := by
  classical
  refine ⟨Nat.find h, Nat.find_spec h, ?_⟩
  intro i hi
  exact not_lt.mp (Nat.find_min h hi)

lemma terminates_of_zeroDrag (p : Params) (hdt : 0 < p.dt)
    (hd : p.rho * p.C * p.S = 0) : Terminates p := by
  have hg : (0 : ℝ) < g := by norm_num [g]
  have hcpos : 0 < g * p.dt := mul_pos hg hdt
  obtain ⟨N, hN⟩ := exists_nat_gt (((init p).vy + 1) / (g * p.dt))
  have hvy : ∀ n : ℕ, N ≤ n → (states p n).vy ≤ -1 := by
    intro n hn
    rw [states_vy_zeroDrag p hd n]
    rw [div_lt_iff hcpos] at hN
    have h2 : (N : ℝ) * (g * p.dt) ≤ (n : ℝ) * (g * p.dt) := by
      apply mul_le_mul_of_nonneg_right _ hcpos.le
      exact_mod_cast hn
    linarith
  have hdec : ∀ k : ℕ, (states p (N + k)).y ≤ (states p N).y - k * p.dt := by
    intro k
    induction k with
    | zero => simp
    | succ k ih =>
        have hstep : (states p (N + (k + 1))).y =
            (states p (N + k)).y + (states p (N + (k + 1))).vy * p.dt := by
          rw [show N + (k + 1) = (N + k) + 1 by omega, states, stepC_y, ← states]
        have hv1 : (states p (N + (k + 1))).vy ≤ -1 := hvy _ (by omega)
        have hmul : (states p (N + (k + 1))).vy * p.dt ≤ -1 * p.dt :=
          mul_le_mul_of_nonneg_right hv1 hdt.le
        rw [hstep]
        push_cast
        linarith
  obtain ⟨K, hK⟩ := exists_nat_gt ((states p N).y / p.dt)
  apply terminates_of_neg
  refine ⟨N + K, ?_⟩
  rw [div_lt_iff hdt] at hK
  have := hdec K
  linarith

/-! The speed at the initial state is the initial speed. -/

lemma speed_init (p : Params) (h0 : 0 ≤ p.v0) : speed (init p) = p.v0 := by
  have hvx : (init p).vx = p.v0 * Real.cos (radians p.angle) := rfl
  have hvy : (init p).vy = p.v0 * Real.sin (radians p.angle) := rfl
  have key : (p.v0 * Real.cos (radians p.angle)) ^ 2 +
      (p.v0 * Real.sin (radians p.angle)) ^ 2 = p.v0 ^ 2 := by
    linear_combination p.v0 ^ 2 * (Real.sin_sq_add_cos_sq (radians p.angle))
  simp only [speed, hvx, hvy]
  rw [key, Real.sqrt_sq h0]

/-! Concrete parameter sets and states used for witnesses and
counterexamples. -/

/-- A validated, drag-free parameter set (drag coefficient 0) with a step
size so large that the first integration step already lands below ground. -/
def pW : Params := ⟨1, 45, 1, 1.29, 0, 0.01, 1⟩

/-- A parameter set that passes validation but has negative air density:
the drag term then accelerates the projectile along its velocity. -/
def pDiv : Params := ⟨20, 45, 1, -2, 1, 1, 1⟩

/-- The spec's concrete scenario with the mass replaced by zero: passes
validation, divides by zero on the first iteration. -/
def pM0 : Params := ⟨100, 45, 0, 1.29, 0.15, 0.01, 0.01⟩

/-- A zero-mass parameter set for the acceleration counterexample. -/
def pEx : Params := ⟨1, 45, 0, 1, 1, 1, 1⟩

/-- A loop state with speed 5 (velocity (3, 4)). -/
def cEx : Config := ⟨0, 0, 3, 4, 0, [], 0⟩

/-- A validated parameter set with nonzero mass. -/
def pOne : Params := ⟨1, 45, 1, 1.29, 0.15, 0.01, 0.01⟩

/-- A loop state at rest (both velocity components zero). -/
def cRest : Config := ⟨0, 0, 0, 0, 0, [], 0⟩

lemma vy_le_speed (c : Config) (h : 0 ≤ c.vy) : c.vy ≤ speed c := by
  unfold speed
  have h1 : c.vy ^ 2 ≤ c.vx ^ 2 + c.vy ^ 2 := by nlinarith [sq_nonneg c.vx]
  calc c.vy = Real.sqrt (c.vy ^ 2) := (Real.sqrt_sq h).symm
    _ ≤ _ := Real.sqrt_le_sqrt h1

lemma radians_45 : radians 45 = Real.pi / 4 := by
  unfold radians
  ring

lemma one_le_sqrt_two : (1 : ℝ) ≤ Real.sqrt 2 := by
  rw [show (1 : ℝ) = Real.sqrt 1 by rw [Real.sqrt_one]]
  exact Real.sqrt_le_sqrt (by norm_num)

/-- A validated parameter set with positive initial speed and zero mass
raises `ZeroDivisionError` on the very first loop iteration. -/
lemma raisesAt0 (p : Params) (hv0 : 0 < p.v0) (hm : p.m = 0) :
    RaisesAt p 0 := by
  refine ⟨?_, ?_, ?_, ?_⟩
  · intro i hi
    have hi0 : i = 0 := by omega
    subst hi0
    exact le_refl ((states p 0).y)
  · intro i hi
    exact absurd hi (Nat.not_lt_zero i)
  · show 0 < speed (init p)
    rw [speed_init p hv0.le]
    exact hv0
  · show p.m * speed (init p) = 0
    rw [hm, zero_mul]

/-! Facts about the witness parameter set `pW`. -/

lemma pW_valid : valid pW := by
  refine ⟨?_, ?_, ?_, ?_⟩ <;> norm_num [pW]

lemma pW_dragZero : pW.rho * pW.C * pW.S = 0 := by norm_num [pW]

lemma pW_y1_neg : (states pW 1).y < 0 := by
  have e1 : states pW 1 = stepC pW (states pW 0) := rfl
  have hy : (states pW 1).y = (states pW 0).y + (states pW 1).vy * pW.dt := by
    rw [e1, stepC_y]
  have hvy1 : (states pW 1).vy = (init pW).vy - (1 : ℝ) * (g * pW.dt) := by
    have h := states_vy_zeroDrag pW pW_dragZero 1
    push_cast at h
    exact h
  have hsin : Real.sin (radians pW.angle) ≤ 1 := Real.sin_le_one _
  have hvy0 : (init pW).vy = pW.v0 * Real.sin (radians pW.angle) := rfl
  have hv0 : pW.v0 = 1 := rfl
  have hdt : pW.dt = 1 := rfl
  have hy0 : (states pW 0).y = 0 := rfl
  have hg : g = 9.81 := rfl
  rw [hy, hy0, hvy1, hvy0, hv0, hdt, hg]
  linarith

lemma pW_landing : landingIndex pW 1 := by
  refine ⟨pW_y1_neg, ?_⟩
  intro i hi
  have hi0 : i = 0 := by omega
  subst hi0
  exact le_refl ((states pW 0).y)

/-! The anti-drag parameter set `pDiv` keeps the projectile climbing
forever: vertical velocity at least 10 and height nonnegative at every
iteration. -/

lemma pDiv_valid : valid pDiv := by
  refine ⟨?_, ?_, ?_, ?_⟩ <;> norm_num [pDiv]

lemma pDiv_inv (n : ℕ) :
    10 ≤ (states pDiv n).vy ∧ 0 ≤ (states pDiv n).y := by
  induction n with
  | zero =>
      constructor
      · show (10 : ℝ) ≤ (init pDiv).vy
        have hvy : (init pDiv).vy = 20 * Real.sin (radians 45) := rfl
        rw [hvy, radians_45, Real.sin_pi_div_four]
        have h2 := one_le_sqrt_two
        linarith
      · exact le_refl ((states pDiv 0).y)
  | succ n ih =>
      obtain ⟨hvy, hy⟩ := ih
      have h0vy : (0 : ℝ) ≤ (states pDiv n).vy := by linarith
      have hvyv : (states pDiv n).vy ≤ speed (states pDiv n) :=
        vy_le_speed _ h0vy
      have hv : 0 < speed (states pDiv n) := by linarith
      have hdrag : calculate_drag_force pDiv (speed (states pDiv n)) =
          -(speed (states pDiv n) ^ 2) := by
        unfold calculate_drag_force
        rw [show pDiv.rho = -2 from rfl, show pDiv.C = 1 from rfl,
          show pDiv.S = 1 from rfl]
        ring
      have hvne : speed (states pDiv n) ≠ 0 := ne_of_gt hv
      have hay : (accel pDiv (states pDiv n)).2 =
          -g + speed (states pDiv n) * (states pDiv n).vy := by
        have haccel : (accel pDiv (states pDiv n)).2 =
            if 0 < speed (states pDiv n) then
              -g - calculate_drag_force pDiv (speed (states pDiv n)) *
                (states pDiv n).vy / (pDiv.m * speed (states pDiv n))
            else -g := rfl
        rw [haccel, if_pos hv, hdrag, show pDiv.m = 1 from rfl, one_mul]
        field_simp
        ring
      have hvy' : (states pDiv (n + 1)).vy =
          (states pDiv n).vy + (accel pDiv (states pDiv n)).2 * pDiv.dt := by
        rw [states, stepC_vy]
      have hy' : (states pDiv (n + 1)).y =
          (states pDiv n).y + (states pDiv (n + 1)).vy * pDiv.dt := by
        rw [states, stepC_y]
      have hp1 : (states pDiv n).vy * (states pDiv n).vy ≤
          speed (states pDiv n) * (states pDiv n).vy :=
        mul_le_mul_of_nonneg_right hvyv h0vy
      have hp2 : 10 * (states pDiv n).vy ≤
          (states pDiv n).vy * (states pDiv n).vy :=
        mul_le_mul_of_nonneg_right hvy h0vy
      have hvy2 : 10 ≤ (states pDiv (n + 1)).vy := by
        rw [hvy', hay, show pDiv.dt = 1 from rfl, show g = 9.81 from rfl]
        linarith
      refine ⟨hvy2, ?_⟩
      rw [hy', show pDiv.dt = 1 from rfl]
      linarith

lemma pDiv_not_term : ¬ Terminates pDiv := by
  rintro ⟨n, hneg, -⟩
  have := (pDiv_inv n).2
  linarith

/-! Speeds of the concrete states. -/

lemma speed_cEx : speed cEx = 5 := by
  show Real.sqrt (cEx.vx ^ 2 + cEx.vy ^ 2) = 5
  rw [show cEx.vx = (3 : ℝ) from rfl, show cEx.vy = (4 : ℝ) from rfl,
    show (3 : ℝ) ^ 2 + 4 ^ 2 = 5 ^ 2 by norm_num]
  exact Real.sqrt_sq (by norm_num)

lemma speed_cRest : speed cRest = 0 := by
  show Real.sqrt (cRest.vx ^ 2 + cRest.vy ^ 2) = 0
  rw [show cRest.vx = (0 : ℝ) from rfl, show cRest.vy = (0 : ℝ) from rfl]
  norm_num

/-! Characterisation of parameter acquisition. -/

lemma get_parameters_none_iff (r : RawInputs) :
    get_parameters r = none ↔ paramFailure r := by
  obtain ⟨v0, angle, m, rho, C, S, dt⟩ := r
  cases v0 <;> cases angle <;> cases m <;> cases rho <;> cases C <;>
    cases S <;> cases dt
  all_goals simp [get_parameters, paramFailure]
  rename_i v0v angv mv rhov Cv Sv dtv
  constructor
  · intro himp
    rcases le_or_lt dtv 0 with h | h
    · exact Or.inl h
    rcases le_or_lt v0v 0 with h2 | h2
    · exact Or.inr (Or.inl h2)
    rcases le_or_lt angv 0 with h3 | h3
    · exact Or.inr (Or.inr (Or.inl h3))
    · exact Or.inr (Or.inr (Or.inr (himp h h2 h3)))
  · rintro (h | h | h | h) <;> intro hdt hv0 hang <;> linarith

lemma get_parameters_some (r : RawInputs) (p : Params)
    (h : get_parameters r = some p) :
    valid p ∧ r.v0 = some p.v0 ∧ r.angle = some p.angle ∧ r.m = some p.m ∧
      r.rho = some p.rho ∧ r.C = some p.C ∧ r.S = some p.S ∧
      r.dt = some p.dt := by
  obtain ⟨v0, angle, m, rho, C, S, dt⟩ := r
  cases v0 <;> cases angle <;> cases m <;> cases rho <;> cases C <;>
    cases S <;> cases dt
  all_goals simp only [get_parameters] at h
  all_goals try exact Option.noConfusion h
  split_ifs at h with h1 h2 h3
  injection h with h'
  subst h'
  push_neg at h1 h2 h3
  exact ⟨⟨h1, h2, h3.1, h3.2⟩, rfl, rfl, rfl, rfl, rfl, rfl, rfl⟩

/-- A textual input set whose step-size field parses to a nonpositive
value. -/
def rBad : RawInputs :=
  ⟨some 1, some 45, some 1, some 1.29, some 0.15, some 0.01, some (-1)⟩

/-! Claim theorems. -/

/-- C2: when the loop exits after `n` iterations, the produced trajectory
is a list whose last sample has height < 0, every earlier sample has
height ≥ 0, and the last sample is exactly the position produced by the
final integration step (no interpolation back to ground level). -/
theorem C2_theorem (p : Params) (n : ℕ) (hp : valid p)
    (hl : landingIndex p n) :
    ∃ l q, (mkResult p n).trajectory = l ++ [q] ∧ q.2 < 0 ∧
      (∀ r ∈ l, 0 ≤ r.2) ∧ q = ((states p n).x, (states p n).y) := by
  obtain ⟨hneg, hpre⟩ := hl
  refine ⟨(List.range n).map (fun i => ((states p i).x, (states p i).y)),
    ((states p n).x, (states p n).y), ?_, hneg, ?_, rfl⟩
  · show (states p n).traj = _
    rw [states_traj p n]
    conv_lhs => rw [List.range_succ]
    rw [List.map_append]
    simp
  · intro r hr
    simp only [List.mem_map, List.mem_range] at hr
    obtain ⟨i, hi, hri⟩ := hr
    subst hri
    exact hpre i hi

/-- C2 witness: instantiated at the concrete parameter set `pW`, which
lands after one iteration. -/
theorem C2_witness :
    ∃ l q, (mkResult pW 1).trajectory = l ++ [q] ∧ q.2 < 0 ∧
      (∀ r ∈ l, 0 ≤ r.2) ∧ q = ((states pW 1).x, (states pW 1).y) :=
  C2_theorem pW 1 pW_valid pW_landing

/-- C3: the reported final speed equals the Euclidean norm of the velocity
components after the last integration step; the branch yielding 0 is never
taken because at loop exit the height is negative (hence ≤ 0). -/
theorem C3_theorem (p : Params) (n : ℕ) (hp : valid p)
    (hl : landingIndex p n) :
    (mkResult p n).final_speed =
        Real.sqrt ((states p n).vx ^ 2 + (states p n).vy ^ 2) ∧
      (states p n).y < 0 := by
  refine ⟨?_, hl.1⟩
  have e : (mkResult p n).final_speed =
      if (states p n).y ≤ 0 then
        Real.sqrt ((states p n).vx ^ 2 + (states p n).vy ^ 2)
      else 0 := rfl
  rw [e, if_pos (le_of_lt hl.1)]

/-- C3 witness: instantiated at the concrete parameter set `pW`. -/
theorem C3_witness :
    (mkResult pW 1).final_speed =
        Real.sqrt ((states pW 1).vx ^ 2 + (states pW 1).vy ^ 2) ∧
      (states pW 1).y < 0 :=
  C3_theorem pW 1 pW_valid pW_landing

/-- C4: the reported max height is the true maximum of the height sequence
of the trajectory (an upper bound on every sample's height, and itself one
of the heights, the initial sample included). -/
theorem C4_theorem (p : Params) (n : ℕ) (hp : valid p)
    (hl : landingIndex p n) :
    (∀ q ∈ (mkResult p n).trajectory, q.2 ≤ (mkResult p n).max_height) ∧
      (mkResult p n).max_height ∈
        ((mkResult p n).trajectory).map Prod.snd :=
  maxH_ub p n

/-- C4 witness: instantiated at the concrete parameter set `pW`. -/
theorem C4_witness :
    (∀ q ∈ (mkResult pW 1).trajectory, q.2 ≤ (mkResult pW 1).max_height) ∧
      (mkResult pW 1).max_height ∈
        ((mkResult pW 1).trajectory).map Prod.snd :=
  C4_theorem pW 1 pW_valid pW_landing

/-- C5 counterexample: with speed positive but mass zero (mass is not
validated), the divisor `m * v` of the drag term is zero, so the
acceleration computation is not division-safe merely because speed is
positive: at the concrete state `cEx` (speed 5) and zero-mass parameters
`pEx` the Python code raises `ZeroDivisionError`. -/
theorem C5_counterexample : 0 < speed cEx ∧ raisesDivZero pEx cEx := by
  constructor
  · rw [speed_cEx]
    norm_num
  · refine ⟨?_, ?_⟩
    · rw [speed_cEx]
      norm_num
    · rw [show pEx.m = 0 from rfl, zero_mul]

/-- C5 (amended): in every iteration with speed exactly zero the computed
acceleration is exactly (0, -g) and no division by zero occurs; when speed
is positive the division is by `m * v`, which is nonzero provided the mass
is nonzero. -/
theorem C5_theorem (p : Params) (c : Config) :
    (speed c = 0 → accel p c = (0, -g) ∧ ¬ raisesDivZero p c) ∧
    (0 < speed c → p.m ≠ 0 → ¬ raisesDivZero p c) := by
  constructor
  · intro h0
    constructor
    · unfold accel
      rw [h0]
      simp
    · rintro ⟨hv, -⟩
      rw [h0] at hv
      exact lt_irrefl 0 hv
  · rintro hv hm ⟨-, h2⟩
    exact (mul_ne_zero hm (ne_of_gt hv)) h2

/-- C5 witness: at the resting state `cRest` (speed 0) with parameters
`pOne`, the acceleration is exactly (0, -g) and no division by zero
occurs. -/
theorem C5_witness : accel pOne cRest = (0, -g) ∧ ¬ raisesDivZero pOne cRest :=
  (C5_theorem pOne cRest).1 speed_cRest

/-- C6: each loop iteration is semi-implicit Euler: velocity is advanced
by acceleration times step first, position is then advanced using the
updated (post-step) velocity times step, and elapsed time advances by
step. -/
theorem C6_theorem (p : Params) (c : Config) :
    (stepC p c).vx = c.vx + (accel p c).1 * p.dt ∧
    (stepC p c).vy = c.vy + (accel p c).2 * p.dt ∧
    (stepC p c).x = c.x + (stepC p c).vx * p.dt ∧
    (stepC p c).y = c.y + (stepC p c).vy * p.dt ∧
    (stepC p c).t = c.t + p.dt :=
  ⟨rfl, rfl, rfl, rfl, rfl⟩

/-- C7: parameter acquisition fails exactly when a field fails to parse or
step ≤ 0 or initial speed ≤ 0 or the angle is outside (0, 90); on failure
the stored results are unchanged and no simulation runs, otherwise the
parsed values are returned (and satisfy the validation invariants) and the
simulation proceeds. -/
theorem C7_theorem (r : RawInputs) :
    (get_parameters r = none ↔ paramFailure r) ∧
    (∀ sim confirm results, get_parameters r = none →
      sessionStep sim confirm r results = results) ∧
    (∀ p, get_parameters r = some p →
      valid p ∧ r.v0 = some p.v0 ∧ r.angle = some p.angle ∧ r.m = some p.m ∧
        r.rho = some p.rho ∧ r.C = some p.C ∧ r.S = some p.S ∧
        r.dt = some p.dt) ∧
    (∀ sim results p, get_parameters r = some p →
      sessionStep sim true r results = results ++ [sim p]) := by
  refine ⟨get_parameters_none_iff r, ?_, get_parameters_some r, ?_⟩
  · intro sim confirm results h
    simp [sessionStep, h]
  · intro sim results p h
    simp [sessionStep, h]

/-- C7 witness: at the concrete raw inputs `rBad` (step parses to -1),
acquisition fails and the stored results are untouched. -/
theorem C7_witness :
    get_parameters rBad = none ∧
      sessionStep (fun q => mkResult q 0) false rBad [] = [] := by
  have h := C7_theorem rBad
  have hnone : get_parameters rBad = none :=
    (h.1).mpr (by norm_num [paramFailure, rBad])
  exact ⟨hnone, h.2.1 (fun q => mkResult q 0) false [] hnone⟩

/-- C8: if the very first integration step produces a negative height, the
loop exits after exactly one iteration and the trajectory holds exactly
two samples: the (0, 0) seed appended before the loop and the one stepped
position. -/
theorem C8_theorem (p : Params) (hp : valid p) (h1 : (states p 1).y < 0) :
    landingIndex p 1 ∧
      (mkResult p 1).trajectory =
        [((0 : ℝ), (0 : ℝ)), ((states p 1).x, (states p 1).y)] := by
  constructor
  · refine ⟨h1, ?_⟩
    intro i hi
    have hi0 : i = 0 := by omega
    subst hi0
    exact le_refl ((states p 0).y)
  · show (states p 1).traj = _
    rw [states_traj p 1, show List.range 2 = [0, 1] from rfl]
    simp [states, init]

/-- C8 witness: the concrete parameter set `pW` (step size 1) teleports
below ground on its first step. -/
theorem C8_witness :
    landingIndex pW 1 ∧
      (mkResult pW 1).trajectory =
        [((0 : ℝ), (0 : ℝ)), ((states pW 1).x, (states pW 1).y)] :=
  C8_theorem pW pW_valid pW_y1_neg

/-- C9: the flight time rendered in the results table is the trajectory
length times the step size, and this equals the elapsed time accumulated
by the loop plus exactly one step. -/
theorem C9_theorem (p : Params) (n : ℕ) (hp : valid p)
    (hl : landingIndex p n) :
    displayedFlightTime (mkResult p n) =
        ((mkResult p n).trajectory.length : ℝ) * p.dt ∧
      displayedFlightTime (mkResult p n) = (states p n).t + p.dt := by
  constructor
  · rfl
  · show ((states p n).traj.length : ℝ) * p.dt = (states p n).t + p.dt
    rw [states_traj_length, states_t]
    push_cast
    ring

/-- C9 witness: instantiated at the concrete parameter set `pW`. -/
theorem C9_witness :
    displayedFlightTime (mkResult pW 1) =
        ((mkResult pW 1).trajectory.length : ℝ) * pW.dt ∧
      displayedFlightTime (mkResult pW 1) = (states pW 1).t + pW.dt :=
  C9_theorem pW 1 pW_valid pW_landing

/-- C10: validation does not constrain mass, air density, drag coefficient
or cross-sectional area: the parameter set `pM0` (the spec's concrete
scenario with mass 0) passes validation, yet on the first loop iteration
the acceleration computation divides by `m * v = 0`, raising an uncaught
`ZeroDivisionError` instead of returning a result. -/
theorem C10_theorem : valid pM0 ∧ RaisesAt pM0 0 :=
  ⟨by refine ⟨?_, ?_, ?_, ?_⟩ <;> norm_num [pM0],
   raisesAt0 pM0 (by norm_num [pM0]) rfl⟩

end Lab1
